import Mathlib

/-!
Verification of the entity/component state store of `becsy` (entity.ts, pool.ts).

The store keeps three parallel bit-plane buffers (`current`, `previous`,
`mutations`), each `stride` 32-bit words per entity slot, plus a scratch
result buffer.  We shallowly embed the TypeScript code: `Uint32Array`s become
`List Nat` (each element a word `< 2^32`; an out-of-range read yields `0`,
matching JS `undefined` coerced by bitwise operators, and an out-of-range
write is a no-op, matching `Uint32Array` semantics); fallible methods return
`Except String`; the compiled WebAssembly scanning kernel is embedded as a
pure function over the `current` word list it scans.
-/

namespace Becsy

/-- A 32-bit word value (kept `< 2^32` by all realistic states). -/
abbrev Word := Nat

/-- JS 32-bit bitwise NOT restricted to unsigned words: for `m < 2^32`,
`~m` (as an unsigned 32-bit pattern) is `0xffffffff ^^^ m`. -/
def not32 (m : Word) : Word := 0xffffffff ^^^ m

/-- The static metadata of a component type's Controller that the store
consumes: the word offset and the single-bit mask locating its presence bit
(`ctrl.flagOffset`, `ctrl.flagMask`). -/
structure Ctrl where
  flagOffset : Nat
  flagMask : Word
deriving DecidableEq, Repr

/-- The state of an `Entities` store: `maxNum = maxEntities + 1` (slot 0 is
reserved), `stride` words per slot, the rotating allocation cursor `nextId`,
and the three flag buffers, each `maxNum * stride` words. -/
structure EState where
  maxNum : Nat
  stride : Nat
  nextId : Nat
  current : List Word
  previous : List Word
  mutations : List Word
deriving DecidableEq, Repr

/-- `Entities.step()`: `previous.set(current)` copies `current` into
`previous` in full; `mutations.fill(0)` zeroes the mutation buffer. -/
def step (s : EState) : EState :=
  { s with previous := s.current, mutations := List.replicate s.mutations.length 0 }

/-- `Entities.hasFlag`: test `current[id*stride + flagOffset] & flagMask`. -/
def hasFlag (s : EState) (id : Nat) (c : Ctrl) : Bool :=
  (s.current.getD (id * s.stride + c.flagOffset) 0) &&& c.flagMask != 0

/-- `Entities.setFlag`: `current[id*stride + flagOffset] |= flagMask`. -/
def setFlag (s : EState) (id : Nat) (c : Ctrl) : EState :=
  let i := id * s.stride + c.flagOffset
  { s with current := s.current.set i ((s.current.getD i 0) ||| c.flagMask) }

/-- `Entities.clearFlag`: `current[id*stride + flagOffset] &= ~flagMask`. -/
def clearFlag (s : EState) (id : Nat) (c : Ctrl) : EState :=
  let i := id * s.stride + c.flagOffset
  { s with current := s.current.set i ((s.current.getD i 0) &&& not32 c.flagMask) }

/-- `Entities.markMutated`: `mutations[id*stride + flagOffset] |= flagMask`. -/
def markMutated (s : EState) (id : Nat) (c : Ctrl) : EState :=
  let i := id * s.stride + c.flagOffset
  { s with mutations := s.mutations.set i ((s.mutations.getD i 0) ||| c.flagMask) }

/-- `Entities.isAllocated(id, entities)`: scan the slot's `stride` words in
the given buffer; allocated iff some word is nonzero. -/
def isAllocatedIn (buf : List Word) (stride id : Nat) : Bool :=
  (List.range stride).any fun offset => buf.getD (id * stride + offset) 0 != 0

/-- `Entities.match(id, entities, positiveMask, negativeMask)`: for every
word index of `positiveMask` the buffer word ANDed with the mask word must
equal the mask word; for every word index of `negativeMask` the AND must be
zero.  Omitted masks (`none`) impose no constraint at all. -/
def matchIn (buf : List Word) (stride id : Nat)
    (positiveMask negativeMask : Option (List Word)) : Bool :=
  let offset := id * stride
  let posOk :=
    match positiveMask with
    | none => true
    | some p => (List.range p.length).all fun i =>
        (buf.getD (offset + i) 0) &&& (p.getD i 0) == p.getD i 0
  let negOk :=
    match negativeMask with
    | none => true
    | some n => (List.range n.length).all fun i =>
        (buf.getD (offset + i) 0) &&& (n.getD i 0) == 0
  posOk && negOk

/-- `Entities.matchCurrent`. -/
def matchCurrent (s : EState) (id : Nat) (p n : Option (List Word)) : Bool :=
  matchIn s.current s.stride id p n

/-- `Entities.matchPrevious`. -/
def matchPrevious (s : EState) (id : Nat) (p n : Option (List Word)) : Bool :=
  matchIn s.previous s.stride id p n

/-- `Entities.matchMutated`. -/
def matchMutated (s : EState) (id : Nat) (p n : Option (List Word)) : Bool :=
  matchIn s.mutations s.stride id p n

/-! ## Sparse query masks

A query mask is a JS `number[]`.  `extendMaskAndSetFlag` manipulates it with
`mask.length = n` followed by `mask.fill`, which can leave *holes* (elements
that read as `undefined`), so for those operations we embed a mask as
`List (Option Word)`, `none` standing for a hole. -/

/-- JS `x |= m` on a possibly-undefined `x`: `ToInt32(undefined) = 0`. -/
def jsOr (v : Option Word) (m : Word) : Word := v.getD 0 ||| m

/-- JS `arr.length = n` on an array of current length `< n`: the new slots
are holes; truncation for `n ≤ length`. -/
def setLengthJs (l : List (Option Word)) (n : Nat) : List (Option Word) :=
  if n ≤ l.length then l.take n
  else l ++ List.replicate (n - l.length) none

/-- JS `arr.fill(v, start, stop)` (clamped to the array's bounds). -/
def fillJs (l : List (Option Word)) (v : Word) (start stop : Nat) :
    List (Option Word) :=
  l.mapIdx fun i x => if start ≤ i ∧ i < stop then some v else x

/-- `Entities.extendMaskAndSetFlag(mask, type)`: if `flagOffset >= mask.length`
then `mask.length = flagOffset + 1; mask.fill(0, mask.length, flagOffset)` —
note the fill's start is read *after* the length was updated — then
`mask[flagOffset] |= ctrl.flagMask`. -/
def extendMaskAndSetFlag (mask : List (Option Word)) (c : Ctrl) :
    List (Option Word) :=
  let mask :=
    if mask.length ≤ c.flagOffset then
      let grown := setLengthJs mask (c.flagOffset + 1)
      fillJs grown 0 grown.length c.flagOffset
    else mask
  mask.set c.flagOffset (some (jsOr (mask.getD c.flagOffset none) c.flagMask))

/-- `Entities.maskHasFlag(mask, type)`: `(mask[flagOffset] ?? 0) & flagMask`,
on a mask that may contain holes (a hole reads as `undefined ?? 0 = 0`). -/
def maskHasFlagJs (mask : List (Option Word)) (c : Ctrl) : Bool :=
  ((mask.getD c.flagOffset none).getD 0) &&& c.flagMask != 0

/-- `Entities.maskHasFlag(mask, type)` on a hole-free mask. -/
def maskHasFlag (mask : List Word) (c : Ctrl) : Bool :=
  (mask.getD c.flagOffset 0) &&& c.flagMask != 0

/-- `Entities.match` evaluated on masks that may contain holes.  For a
positive-mask hole `maskByte` is `undefined`; `(word & undefined)` is the
number `0` and `0 !== undefined`, so the test *fails*.  For a negative-mask
hole `(word & undefined) !== 0` is `0 !== 0`, false, so no constraint. -/
def matchInJs (buf : List Word) (stride id : Nat)
    (positiveMask negativeMask : Option (List (Option Word))) : Bool :=
  let offset := id * stride
  let posOk :=
    match positiveMask with
    | none => true
    | some p => (List.range p.length).all fun i =>
        match p.getD i none with
        | none => false
        | some m => (buf.getD (offset + i) 0) &&& m == m
  let negOk :=
    match negativeMask with
    | none => true
    | some n => (List.range n.length).all fun i =>
        match n.getD i none with
        | none => true
        | some m => (buf.getD (offset + i) 0) &&& m == 0
  posOk && negOk

/-! ## Capability masks and Entity handle operations -/

/-- `dispatcher.rwMasks`: the currently executing system's declared read and
write component-type sets. -/
structure RWMasks where
  read : List Word
  write : List Word
deriving DecidableEq, Repr

def capReadableErr : String := "System did not mark component as readable"

def capWritableErr : String := "System did not mark component as writable"

def missingErr : String := "Entity does not have the component"

def alreadyHasErr : String := "Entity already has the component"

def maxEntitiesErr : String := "Max number of entities reached"

/-- `Entity.__checkMask(type, write)`: when `dispatcher.rwMasks` is set and
the type's flag is missing from the relevant mask, throw; otherwise pass.
`rw = none` models running outside any system (JS `rwMasks` nullish). -/
def checkMask (rw : Option RWMasks) (c : Ctrl) (wantWrite : Bool) :
    Except String Unit :=
  match rw with
  | none => .ok ()
  | some m =>
      if maskHasFlag (if wantWrite then m.write else m.read) c then .ok ()
      else .error (if wantWrite then capWritableErr else capReadableErr)

/-- `Entity.has(type)`: check the read mask, then test the presence bit. -/
def hasOp (s : EState) (rw : Option RWMasks) (id : Nat) (c : Ctrl) :
    Except String Bool :=
  match checkMask rw c false with
  | .error e => .error e
  | .ok _ => .ok (hasFlag s id c)

/-- `Entity.__get(type, allowWrite)`: check the mask for the requested access,
then `this.has(type)` (which itself checks the read mask); absent components
yield `none`, present ones a bound component view, modelled as the
`(slot, writable)` pair passed to the controller's `bind`. -/
def getOp (s : EState) (rw : Option RWMasks) (id : Nat) (c : Ctrl)
    (allowWrite : Bool) : Except String (Option (Nat × Bool)) :=
  match checkMask rw c allowWrite with
  | .error e => .error e
  | .ok _ =>
      match hasOp s rw id c with
      | .error e => .error e
      | .ok h => if h then .ok (some (id, allowWrite)) else .ok none

/-- `Entity.read(type)`: `__get(type, false)`, throwing if absent. -/
def readOp (s : EState) (rw : Option RWMasks) (id : Nat) (c : Ctrl) :
    Except String (Nat × Bool) :=
  match getOp s rw id c false with
  | .error e => .error e
  | .ok none => .error missingErr
  | .ok (some comp) => .ok comp

/-- `Entity.readIfPresent(type)`: `__get(type, false)`. -/
def readIfPresentOp (s : EState) (rw : Option RWMasks) (id : Nat) (c : Ctrl) :
    Except String (Option (Nat × Bool)) :=
  getOp s rw id c false

/-- `Entity.write(type)`: `__get(type, true)`, throwing if absent, then
`markMutated`; returns the writable component view and the updated store. -/
def writeOp (s : EState) (rw : Option RWMasks) (id : Nat) (c : Ctrl) :
    Except String ((Nat × Bool) × EState) :=
  match getOp s rw id c true with
  | .error e => .error e
  | .ok none => .error missingErr
  | .ok (some comp) => .ok (comp, markMutated s id c)

/-- `Entity.add(type, values)`: check the write mask, throw if the component
is already present, set the presence bit (field initialization is delegated
to the external controller). -/
def add (s : EState) (rw : Option RWMasks) (id : Nat) (c : Ctrl) :
    Except String EState :=
  match checkMask rw c true with
  | .error e => .error e
  | .ok _ =>
      match hasOp s rw id c with
      | .error e => .error e
      | .ok h => if h then .error alreadyHasErr else .ok (setFlag s id c)

/-! ## Component removal and outbound-reference cleanup -/

/-- The field kind tag of a controller's field descriptor: `Type.ref`
(strong entity reference) versus any plain data type. -/
inductive FieldKind where
  | ref
  | plain
deriving DecidableEq, Repr

/-- A controller field descriptor, as consumed by `__deindexOutboundRefs`. -/
structure FieldDesc where
  name : String
  kind : FieldKind
deriving DecidableEq, Repr

/-- Observable side effects of a removal, in the order they happen. -/
inductive Ev where
  | nullField (name : String)
  | clearPresence
deriving DecidableEq, Repr

/-- `Entity.__deindexOutboundRefs(type)`: if some field of the component has
kind `Type.ref`, obtain write access to the component (`this.write(type)` —
which marks the mutation bit) and null each such field. -/
def deindexOutboundRefs (s : EState) (rw : Option RWMasks) (id : Nat)
    (c : Ctrl) (fields : List FieldDesc) : Except String (EState × List Ev) :=
  if fields.any (fun f => f.kind == FieldKind.ref) then
    match writeOp s rw id c with
    | .error e => .error e
    | .ok (_, s) =>
        .ok (s, fields.filterMap fun f =>
          match f.kind with
          | .ref => some (.nullField f.name)
          | .plain => none)
  else .ok (s, [])

/-- `Entity.__remove(type)`: de-index outbound refs, then clear the presence
bit; the inbound-reference wipe that follows when the slot becomes fully
unallocated is a no-op in the source (`__wipeInboundRefs` is a stub). -/
def removeInner (s : EState) (rw : Option RWMasks) (id : Nat) (c : Ctrl)
    (fields : List FieldDesc) : Except String (EState × List Ev) :=
  match deindexOutboundRefs s rw id c fields with
  | .error e => .error e
  | .ok (s, evs) => .ok (clearFlag s id c, evs ++ [Ev.clearPresence])

/-- `Entity.remove(type)`: check the write mask; return `false` untouched if
the presence bit is clear, else run `__remove` and return `true`. -/
def remove (s : EState) (rw : Option RWMasks) (id : Nat) (c : Ctrl)
    (fields : List FieldDesc) : Except String (Bool × EState × List Ev) :=
  match checkMask rw c true with
  | .error e => .error e
  | .ok _ =>
      if hasFlag s id c then
        match removeInner s rw id c fields with
        | .error e => .error e
        | .ok (s, evs) => .ok (true, s, evs)
      else .ok (false, s, [])

/-! ## Entity allocation -/

/-- One probe of `createEntity`'s scan loop over an explicit list of
candidate slot ids: the first id unallocated in both buffers wins. -/
def scanFrom (cur prev : List Word) (stride : Nat) : List Nat → Option Nat
  | [] => none
  | id :: rest =>
      if !isAllocatedIn cur stride id && !isAllocatedIn prev stride id then some id
      else scanFrom cur prev stride rest

/-- The slot ids `createEntity`'s loop visits, in order: it starts at
`nextId`, increments, wraps from `maxNum` to `1`, and stops upon returning
to its starting point. -/
def candidateIds (nextId maxNum : Nat) : List Nat :=
  List.range' nextId (maxNum - nextId) ++ List.range' 1 (nextId - 1)

/-- The id found by `createEntity`'s wraparound scan, if any. -/
def createScan (s : EState) : Option Nat :=
  scanFrom s.current s.previous s.stride (candidateIds s.nextId s.maxNum)

/-- Cursor advance: `id += 1; if (id === maxNum) id = 1`. -/
def wrapId (id maxNum : Nat) : Nat := if id + 1 == maxNum then 1 else id + 1

/-- Apply the inline component initializations of `createEntity` in order
(each one an `entity.add`). -/
def addAll (s : EState) (rw : Option RWMasks) (id : Nat) :
    List Ctrl → Except String EState
  | [] => .ok s
  | c :: rest =>
      match add s rw id c with
      | .error e => .error e
      | .ok s1 => addAll s1 rw id rest

/-- `Entities.createEntity(initialComponents)`: scan for a slot free in both
`current` and `previous`; throw the capacity error after a fruitless full
wrap; otherwise bind the slot, apply the initial components, then advance
the cursor past the slot. -/
def createEntity (s : EState) (rw : Option RWMasks) (comps : List Ctrl) :
    Except String (Nat × EState) :=
  match createScan s with
  | none => .error maxEntitiesErr
  | some id =>
      match addAll s rw id comps with
      | .error e => .error e
      | .ok s1 => .ok (id, { s1 with nextId := wrapId id s1.maxNum })

/-! ## The compiled scanning kernel

`generateWasmModule` compiles a WebAssembly routine `iterateAll(segSize,
posMask, negMask)`. Against memory laid out as
`current ++ previous ++ mutations ++ filtered`, the kernel starts with
`id = 1` and byte offset `currOffset = 4` (word index 1), each iteration
tests `(mem[word] & posMask) == posMask && (mem[word] & negMask) == 0`,
writes `id` to the next free slot of `filtered` on success, then increments
`id` by 1 and `currOffset` by one word, and breaks once `currOffset`
reaches `segSize` — so it visits word indices `1 .. maxNum*stride - 1` of
`current`, pairing word index `w` with slot id `w`.  We embed it as the
list of slot ids in the `filtered` buffer after a call. -/

/-- The kernel's per-word test. -/
def wasmMatchWord (w pos neg : Word) : Bool :=
  ((w &&& pos) == pos) && ((w &&& neg) == 0)

/-- The slot ids the kernel writes to `filtered`, in order: word index `w`
ranges over `1 .. maxNum*stride - 1` and doubles as the candidate id. -/
def kernelIterateAll (current : List Word) (maxNum stride : Nat)
    (pos neg : Word) : List Nat :=
  (List.range' 1 (maxNum * stride - 1)).filter fun w =>
    wasmMatchWord (current.getD w 0) pos neg

/-- `withMask?.[0] ?? 0`: `iterateAll` forwards only the first word of each
mask to the kernel. -/
def firstWord (mask : Option (List Word)) : Word :=
  match mask with
  | none => 0
  | some m => m.getD 0 0

/-- `Entities.iterateAll(withMask, withoutMask)`: the ids in the scratch
`filtered` buffer after the single kernel invocation. -/
def iterateAllResults (s : EState) (withMask withoutMask : Option (List Word)) :
    List Nat :=
  kernelIterateAll s.current s.maxNum s.stride (firstWord withMask)
    (firstWord withoutMask)

/-! ## The lazy iterators and their flush points

Both `iterateAll` and `iterate` return explicit-iterator objects.  We embed
one `next()` call as a function from the iterator's captured state to the
new state, a flag recording whether `dispatcher.flush()` ran during this
call, and the produced element (`none` once exhausted; an element is the
slot id passed to `bind`). -/

/-- One `next()` call of `iterateAll`'s iterator: `if (i >= 0) flush();
if (++i >= numResults) done; else value = bind(filtered[i])`.  The cursor
`i` starts at `-1`. -/
def iterateAllNext (numResults : Nat) (filtered : List Nat) (i : Int) :
    Int × Bool × Option Nat :=
  let flushed := decide (0 ≤ i)
  let i1 := i + 1
  if (numResults : Int) ≤ i1 then (i1, flushed, none)
  else (i1, flushed, some (filtered.getD i1.toNat 0))

/-- The skip loop of `iterate`'s `next()`, with an explicit iteration bound:
each pass of `while (id < maxEntities && !predicate(id)) id++` increases
`id`, so `maxNum - id` passes always suffice and the bound never cuts the
loop short. -/
def skipUnmatchedAux (maxNum : Nat) (pred : Nat → Bool) : Nat → Nat → Nat
  | id, 0 => id
  | id, fuel + 1 =>
      if id < maxNum && !pred id then skipUnmatchedAux maxNum pred (id + 1) fuel
      else id

/-- The skip loop of `iterate`'s `next()`:
`while (id < maxEntities && !predicate(id)) id++` (the local `maxEntities`
holds `this.maxNum`). -/
def skipUnmatched (maxNum : Nat) (pred : Nat → Bool) (id : Nat) : Nat :=
  skipUnmatchedAux maxNum pred id (maxNum - id)

/-- One `next()` call of `iterate`'s iterator: `this.dispatcher.flush()`
runs unconditionally first — the `Bool` in the result records that — then
the skip loop, then either a bound entity or done.  The cursor `id` starts
at `1`. -/
def iterateNext (maxNum : Nat) (pred : Nat → Bool) (id : Nat) :
    Nat × Bool × Option Nat :=
  let id1 := skipUnmatched maxNum pred id
  if id1 < maxNum then (id1 + 1, true, some id1)
  else (id1, true, none)

/-! ## The handle pool

`Pool` stores pre-constructed `Entity` objects in `list` with a cursor
`next`.  Object identity matters (handles are mutated in place by
`__reset`), so we embed a handle as its index in `list` and keep each
object's mutable slot-id field in the list itself. -/

/-- The pooled `Entity` object's rebindable state: the slot id it is
currently bound to (`__id`; `0` for a freshly constructed object). -/
structure PoolEntity where
  id : Nat
deriving DecidableEq, Repr

/-- `new Entity()`: fields not yet set; the slot id reads as the sentinel. -/
def newPoolEntity : PoolEntity := ⟨0⟩

/-- The pool's state: the backing list and the cursor. -/
structure PoolState where
  list : List PoolEntity
  next : Nat
deriving DecidableEq, Repr

/-- `if (this.next === this.list.length) this.list.push(new this.Class())` —
the growth step shared by `take` and `borrow`. -/
def poolGrow (p : PoolState) : PoolState :=
  if p.next == p.list.length then { p with list := p.list ++ [newPoolEntity] }
  else p

/-- `Pool.take()`: grow if needed, hand out `list[next]`, advance. -/
def poolTake (p : PoolState) : Nat × PoolState :=
  let p := poolGrow p
  (p.next, { p with next := p.next + 1 })

/-- `Pool.borrow()`: grow if needed, hand out `list[next]` without
advancing. -/
def poolBorrow (p : PoolState) : Nat × PoolState :=
  let p := poolGrow p
  (p.next, p)

/-- `Entities.bind(id)`: borrow a handle from the pool and `__reset` it in
place to the given slot id. -/
def bindHandle (p : PoolState) (id : Nat) : Nat × PoolState :=
  let (ix, p) := poolBorrow p
  (ix, { p with list := p.list.set ix ⟨id⟩ })

/-! ## Operation traces

To reason about sequences of store operations (allocation, removal, frame
steps) we run lists of operations, all outside a system context
(`rwMasks` nullish), recording the outcome of every `createEntity` call. -/

/-- One driver-level operation on the store. -/
inductive Op where
  | create (comps : List Ctrl)
  | removeComp (id : Nat) (c : Ctrl)
  | stepOp
deriving DecidableEq, Repr

/-- Apply one operation; the second component reports a `createEntity`
outcome (`none` for the other operations). -/
def applyOp (s : EState) : Op → EState × Option (Except String Nat)
  | .create comps =>
      match createEntity s none comps with
      | .ok (id, s1) => (s1, some (.ok id))
      | .error e => (s, some (.error e))
  | .removeComp id c =>
      match remove s none id c [] with
      | .ok (_, s1, _) => (s1, none)
      | .error _ => (s, none)
  | .stepOp => (step s, none)

/-- Run a list of operations, collecting every `createEntity` outcome in
order. -/
def runOps (s : EState) : List Op → EState × List (Except String Nat)
  | [] => (s, [])
  | op :: rest =>
      let (s1, r) := applyOp s op
      let (s2, rs) := runOps s1 rest
      (s2, match r with | some x => x :: rs | none => rs)

end Becsy

namespace Becsy

/-! ## Helper lemmas -/

theorem getD_replicate_zero (n i : Nat) :
    (List.replicate n (0 : Word)).getD i 0 = 0 := by
  induction n generalizing i with
  | zero => simp [List.getD]
  | succ n ih =>
      cases i with
      | zero => simp [List.replicate]
      | succ i => simp only [List.replicate, List.getD_cons_succ]; exact ih i

theorem matchIn_eq_true_iff (buf : List Word) (stride id : Nat)
    (pm nm : Option (List Word)) :
    matchIn buf stride id pm nm = true ↔
      ((∀ p, pm = some p → ∀ i < p.length,
          (buf.getD (id * stride + i) 0) &&& p.getD i 0 = p.getD i 0) ∧
       (∀ n, nm = some n → ∀ i < n.length,
          (buf.getD (id * stride + i) 0) &&& n.getD i 0 = 0)) := by
  cases pm <;> cases nm <;>
    simp [matchIn, List.all_eq_true, List.mem_range]

/-! ## Claim theorems -/

/-- Claim C4: after any call to `step()`, the previous buffer equals the
value the current buffer held when `step()` was called, every mutation
word is zero regardless of the prior contents, and the current buffer is
unchanged. -/
theorem step_swaps_and_zeroes (s : EState) :
    (step s).previous = s.current ∧
    (∀ i, (step s).mutations.getD i 0 = 0) ∧
    (step s).current = s.current :=
  ⟨rfl, fun i => by simp [step, getD_replicate_zero], rfl⟩

/-- Claim C3: `matchCurrent`/`matchPrevious`/`matchMutated` return true iff
every word index below the positive mask's length has the buffer word AND
mask word equal to the mask word, and every word index below the negative
mask's length has the buffer word AND mask word zero; indices beyond a
mask's length, and omitted masks, impose no constraint. -/
theorem match_word_semantics (s : EState) (id : Nat)
    (pm nm : Option (List Word)) :
    (matchCurrent s id pm nm = true ↔
      ((∀ p, pm = some p → ∀ i < p.length,
          (s.current.getD (id * s.stride + i) 0) &&& p.getD i 0 = p.getD i 0) ∧
       (∀ n, nm = some n → ∀ i < n.length,
          (s.current.getD (id * s.stride + i) 0) &&& n.getD i 0 = 0))) ∧
    (matchPrevious s id pm nm = true ↔
      ((∀ p, pm = some p → ∀ i < p.length,
          (s.previous.getD (id * s.stride + i) 0) &&& p.getD i 0 = p.getD i 0) ∧
       (∀ n, nm = some n → ∀ i < n.length,
          (s.previous.getD (id * s.stride + i) 0) &&& n.getD i 0 = 0))) ∧
    (matchMutated s id pm nm = true ↔
      ((∀ p, pm = some p → ∀ i < p.length,
          (s.mutations.getD (id * s.stride + i) 0) &&& p.getD i 0 = p.getD i 0) ∧
       (∀ n, nm = some n → ∀ i < n.length,
          (s.mutations.getD (id * s.stride + i) 0) &&& n.getD i 0 = 0))) :=
  ⟨matchIn_eq_true_iff s.current s.stride id pm nm,
   matchIn_eq_true_iff s.previous s.stride id pm nm,
   matchIn_eq_true_iff s.mutations s.stride id pm nm⟩

/-! Lemmas about the allocation scan. -/

theorem scanFrom_some (cur prev : List Word) (stride : Nat) (l : List Nat) :
    ∀ id, scanFrom cur prev stride l = some id →
      isAllocatedIn cur stride id = false ∧
      isAllocatedIn prev stride id = false := by
  induction l with
  | nil => intro id h; simp [scanFrom] at h
  | cons x rest ih =>
      intro id h
      rw [scanFrom] at h
      split at h
      · next hc =>
          cases h
          simp only [Bool.and_eq_true, Bool.not_eq_true'] at hc
          exact hc
      · exact ih id h

theorem scanFrom_mem (cur prev : List Word) (stride : Nat) (l : List Nat) :
    ∀ id, scanFrom cur prev stride l = some id → id ∈ l := by
  induction l with
  | nil => intro id h; simp [scanFrom] at h
  | cons x rest ih =>
      intro id h
      rw [scanFrom] at h
      split at h
      · cases h; exact List.mem_cons_self x rest
      · exact List.mem_cons_of_mem x (ih id h)

theorem scanFrom_none_iff (cur prev : List Word) (stride : Nat) (l : List Nat) :
    scanFrom cur prev stride l = none ↔
      ∀ id ∈ l, isAllocatedIn cur stride id = true ∨
        isAllocatedIn prev stride id = true := by
  induction l with
  | nil => simp [scanFrom]
  | cons x rest ih =>
      rw [scanFrom]
      by_cases hc : (!isAllocatedIn cur stride x &&
          !isAllocatedIn prev stride x) = true
      · rw [if_pos hc]
        simp only [Bool.and_eq_true, Bool.not_eq_true'] at hc
        constructor
        · intro h; cases h
        · intro h
          rcases h x (List.mem_cons_self x rest) with h1 | h1
          · rw [hc.1] at h1; cases h1
          · rw [hc.2] at h1; cases h1
      · rw [if_neg hc]
        rw [ih]
        constructor
        · intro h id hid
          rcases List.mem_cons.mp hid with rfl | hid
          · simp only [Bool.and_eq_true, Bool.not_eq_true', not_and] at hc
            cases hA : isAllocatedIn cur stride id with
            | true => exact Or.inl rfl
            | false =>
                cases hB : isAllocatedIn prev stride id with
                | true => exact Or.inr rfl
                | false => exact absurd hB (hc hA)
          · exact h id hid
        · intro h id hid; exact h id (List.mem_cons_of_mem x hid)

theorem mem_candidateIds (nid maxNum id : Nat) (h1 : 1 ≤ nid)
    (h2 : nid < maxNum) :
    id ∈ candidateIds nid maxNum ↔ 1 ≤ id ∧ id < maxNum := by
  simp only [candidateIds, List.mem_append, List.mem_range'_1]
  omega

theorem checkMask_error_cases (rw : Option RWMasks) (c : Ctrl) (w : Bool)
    (e : String) (h : checkMask rw c w = .error e) :
    e = capWritableErr ∨ e = capReadableErr := by
  unfold checkMask at h
  cases rw with
  | none => cases h
  | some m =>
      by_cases hm : maskHasFlag (if w then m.write else m.read) c
      · simp [hm] at h
      · simp only [hm, if_false, Bool.false_eq_true, ite_false] at h
        cases w with
        | true => simp at h; exact Or.inl h.symm
        | false => simp at h; exact Or.inr h.symm

theorem add_error_ne_max (s : EState) (rw : Option RWMasks) (id : Nat)
    (c : Ctrl) (e : String) (h : add s rw id c = .error e) :
    e ≠ maxEntitiesErr := by
  unfold add at h
  cases h1 : checkMask rw c true with
  | error e1 =>
      rw [h1] at h
      cases h
      rcases checkMask_error_cases rw c true e h1 with rfl | rfl <;> decide
  | ok u =>
      rw [h1] at h
      cases h2 : checkMask rw c false with
      | error e2 =>
          simp only [hasOp, h2] at h
          cases h
          rcases checkMask_error_cases rw c false e h2 with rfl | rfl <;> decide
      | ok v =>
          by_cases hf : hasFlag s id c
          · simp only [hasOp, h2, hf, if_true] at h
            cases h
            decide
          · simp only [hasOp, h2, hf, if_false] at h
            cases h

theorem addAll_error_ne_max (rw : Option RWMasks) (id : Nat) :
    ∀ (comps : List Ctrl) (s : EState) (e : String),
      addAll s rw id comps = .error e → e ≠ maxEntitiesErr := by
  intro comps
  induction comps with
  | nil => intro s e h; cases h
  | cons c rest ih =>
      intro s e h
      unfold addAll at h
      cases ha : add s rw id c with
      | error e1 => rw [ha] at h; cases h; exact add_error_ne_max s rw id c e ha
      | ok s1 => rw [ha] at h; exact ih s1 e h

/-! Concrete stores and traces used by several closed theorems. -/

/-- The controller metadata of the first registered component type. -/
def ctrlA : Ctrl := ⟨0, 1⟩

/-- A fresh store with `maxEntities = 1` (one usable slot), one component
type (`stride = 1`). -/
def initTiny : EState := ⟨2, 1, 1, [0, 0], [0, 0], [0, 0]⟩

/-- A fresh store with `maxEntities = 4`, one component type. -/
def initFour : EState :=
  ⟨5, 1, 1, List.replicate 5 0, List.replicate 5 0, List.replicate 5 0⟩

/-- Allocate slot 1 with component A, remove A again (making the slot fully
unallocated), then allocate again — all within one frame, no `step()`. -/
def reuseOps : List Op := [.create [ctrlA], .removeComp 1 ctrlA, .create [ctrlA]]

/-- Claim C2 counterexample: in a trace with no `step()` at all, a slot is
allocated, becomes fully unallocated, and is reallocated — both
`createEntity` calls return slot 1 — because a slot freed in the same frame
it was allocated never appears in the previous buffer.  This refutes the
one-frame-deferral consequence as stated. -/
theorem premature_reuse_counterexample :
    (runOps initTiny reuseOps).2 = [.ok 1, .ok 1] ∧ Op.stepOp ∉ reuseOps :=
  ⟨by rfl, by decide⟩

/-- Claim C2 (amended): every slot ID returned by `createEntity` is, at the
moment of allocation, unallocated (all flag words zero) in both the current
and the previous buffer. -/
theorem created_slot_unallocated (s : EState) (rw : Option RWMasks)
    (comps : List Ctrl) (id : Nat) (s1 : EState)
    (h : createEntity s rw comps = .ok (id, s1)) :
    isAllocatedIn s.current s.stride id = false ∧
    isAllocatedIn s.previous s.stride id = false := by
  unfold createEntity at h
  cases hscan : createScan s with
  | none => simp only [hscan] at h; cases h
  | some id0 =>
      simp only [hscan] at h
      cases ha : addAll s rw id0 comps with
      | error e => simp only [ha] at h; cases h
      | ok s2 =>
          simp only [ha, Except.ok.injEq, Prod.mk.injEq] at h
          obtain ⟨rfl, -⟩ := h
          exact scanFrom_some s.current s.previous s.stride
            (candidateIds s.nextId s.maxNum) id0 hscan

/-- Closed witness: on a fresh one-slot store the allocated slot 1 was
unallocated in both buffers. -/
theorem created_slot_unallocated_witness :
    isAllocatedIn initTiny.current initTiny.stride 1 = false ∧
    isAllocatedIn initTiny.previous initTiny.stride 1 = false :=
  created_slot_unallocated initTiny none [] 1 initTiny (by rfl)

/-- Claim C7 counterexample: an entity created with no components leaves its
slot immediately unallocated, so on a `maxEntities = 4` store five
consecutive bare `createEntity` calls all succeed — the fifth reuses slot 1
instead of failing with the capacity error, falsifying the scenario as
stated. -/
theorem capacity_scenario_counterexample :
    (runOps initFour (List.replicate 5 (Op.create []))).2 =
      [.ok 1, .ok 2, .ok 3, .ok 4, .ok 1] := by rfl

/-- Claim C7 (amended): `createEntity` throws the capacity-exhaustion error
iff the full wraparound scan from the cursor finds no slot unallocated in
both buffers — equivalently, iff every slot id in range is allocated in
current or in previous; and with `maxEntities = 4`, after four successful
`createEntity` calls each attaching one component, a fifth call fails with
the capacity error. -/
theorem createEntity_capacity :
    (∀ (s : EState) (rw : Option RWMasks) (comps : List Ctrl),
      1 ≤ s.nextId → s.nextId < s.maxNum →
      (createEntity s rw comps = .error maxEntitiesErr ↔
        ∀ id, 1 ≤ id → id < s.maxNum →
          (isAllocatedIn s.current s.stride id = true ∨
           isAllocatedIn s.previous s.stride id = true))) ∧
    (runOps initFour (List.replicate 5 (Op.create [ctrlA]))).2 =
      [.ok 1, .ok 2, .ok 3, .ok 4, .error maxEntitiesErr] := by
  constructor
  · intro s rw comps h1 h2
    constructor
    · intro he id hi1 hi2
      cases hscan : createScan s with
      | some id0 =>
          exfalso
          unfold createEntity at he
          simp only [hscan] at he
          cases ha : addAll s rw id0 comps with
          | error e =>
              simp only [ha] at he
              cases he
              exact addAll_error_ne_max rw id0 comps s maxEntitiesErr ha rfl
          | ok s2 => simp only [ha] at he; cases he
      | none =>
          have hall := (scanFrom_none_iff s.current s.previous s.stride
            (candidateIds s.nextId s.maxNum)).mp hscan
          exact hall id ((mem_candidateIds s.nextId s.maxNum id h1 h2).mpr
            ⟨hi1, hi2⟩)
    · intro hall
      have hscan : createScan s = none := by
        unfold createScan
        rw [scanFrom_none_iff]
        intro id hid
        have hm := (mem_candidateIds s.nextId s.maxNum id h1 h2).mp hid
        exact hall id hm.1 hm.2
      unfold createEntity
      rw [hscan]
  · rfl

/-- Closed witness for the capacity theorem, at a store whose four slots are
all allocated in the current buffer. -/
theorem createEntity_capacity_witness :
    createEntity ⟨5, 1, 1, [0, 1, 1, 1, 1], List.replicate 5 0,
        List.replicate 5 0⟩ none [] = .error maxEntitiesErr ↔
      ∀ id, 1 ≤ id → id < 5 →
        (isAllocatedIn [0, 1, 1, 1, 1] 1 id = true ∨
         isAllocatedIn (List.replicate 5 0) 1 id = true) :=
  createEntity_capacity.1 ⟨5, 1, 1, [0, 1, 1, 1, 1], List.replicate 5 0,
    List.replicate 5 0⟩ none [] (by decide) (by decide)

/-! Bit arithmetic for presence-bit clearing. -/

theorem and_not32_and_self (m : Word) (hm : m < 2 ^ 32) (x : Word) :
    (x &&& not32 m) &&& m = 0 := by
  apply Nat.eq_of_testBit_eq
  intro i
  simp only [Nat.testBit_and, Nat.zero_testBit, not32, Nat.testBit_xor]
  by_cases hi : i < 32
  · have h1 : (0xffffffff : Nat).testBit i = true := by
      have he : (0xffffffff : Nat) = 2 ^ 32 - 1 := by norm_num
      rw [he, Nat.testBit_two_pow_sub_one]
      simpa using hi
    rw [h1]
    cases hx : Nat.testBit x i <;> cases hmi : Nat.testBit m i <;> rfl
  · have h2 : m.testBit i = false :=
      Nat.testBit_eq_false_of_lt
        (lt_of_lt_of_le hm (Nat.pow_le_pow_right (by norm_num) (le_of_not_lt hi)))
    simp [h2]

theorem getD_set_self {α : Type} (l : List α) (i : Nat) (a d : α)
    (h : i < l.length) : (l.set i a).getD i d = a := by
  simp [List.getD_eq_getElem?_getD, List.getElem?_set_self h]

theorem getD_ne_zero_lt_length (l : List Word) (i : Nat)
    (h : l.getD i 0 ≠ 0) : i < l.length := by
  by_contra hi
  exact h (List.getD_eq_default l 0 (le_of_not_lt hi))

theorem hasFlag_clearFlag (s : EState) (id : Nat) (c : Ctrl)
    (hm : c.flagMask < 2 ^ 32) : hasFlag (clearFlag s id c) id c = false := by
  unfold hasFlag clearFlag
  by_cases hi : id * s.stride + c.flagOffset < s.current.length
  · rw [getD_set_self _ _ _ _ hi]
    simp [and_not32_and_self c.flagMask hm]
  · have hz : (s.current.set (id * s.stride + c.flagOffset)
        ((s.current.getD (id * s.stride + c.flagOffset) 0) &&& not32 c.flagMask)).getD
        (id * s.stride + c.flagOffset) 0 = 0 := by
      apply List.getD_eq_default
      simpa using le_of_not_lt hi
    rw [hz]
    simp

/-- Claim C8: when the presence bit is clear, `remove` returns `false` and
leaves the store untouched; when it is set, `remove` nulls every declared
strong-entity-reference field of the component (obtaining write access to
do so), strictly before the single presence-bit-clear effect, and returns
`true` with the bit cleared.  Hypotheses: the caller's capability masks
admit the access (`remove` checks the write mask, and the write access used
for ref cleanup also passes through `has`, which checks the read mask), and
the flag mask is a 32-bit word. -/
theorem remove_semantics (s : EState) (rw : Option RWMasks) (id : Nat)
    (c : Ctrl) (fields : List FieldDesc)
    (hw : checkMask rw c true = .ok ())
    (hr : checkMask rw c false = .ok ())
    (hm : c.flagMask < 2 ^ 32) :
    (hasFlag s id c = false → remove s rw id c fields = .ok (false, s, [])) ∧
    (hasFlag s id c = true →
      ∃ s2 pre,
        remove s rw id c fields = .ok (true, s2, pre ++ [Ev.clearPresence]) ∧
        (∀ f ∈ fields, f.kind = FieldKind.ref → Ev.nullField f.name ∈ pre) ∧
        Ev.clearPresence ∉ pre ∧
        hasFlag s2 id c = false) := by
  constructor
  · intro hf
    unfold remove
    rw [hw, hf]
    rfl
  · intro hf
    by_cases hrefs : fields.any (fun f => f.kind == FieldKind.ref)
    · refine ⟨clearFlag (markMutated s id c) id c,
        fields.filterMap (fun f =>
          match f.kind with
          | .ref => some (.nullField f.name)
          | .plain => none), ?_, ?_, ?_, ?_⟩
      · unfold remove removeInner deindexOutboundRefs writeOp getOp hasOp
        rw [hw, hr, hf, hrefs]
        rfl
      · intro f hfm hkind
        exact List.mem_filterMap.mpr ⟨f, hfm, by rw [hkind]⟩
      · intro hmem
        obtain ⟨f, _, hgf⟩ := List.mem_filterMap.mp hmem
        cases hk : f.kind with
        | ref => rw [hk] at hgf; cases hgf
        | plain => rw [hk] at hgf; cases hgf
      · exact hasFlag_clearFlag (markMutated s id c) id c hm
    · refine ⟨clearFlag s id c, [], ?_, ?_, ?_, ?_⟩
      · unfold remove removeInner deindexOutboundRefs
        rw [hw, hf]
        rw [if_neg hrefs]
        rfl
      · intro f hfm hkind
        exfalso
        exact hrefs (List.any_eq_true.mpr ⟨f, hfm, by rw [hkind]; rfl⟩)
      · simp
      · exact hasFlag_clearFlag s id c hm

/-- Closed witness: removing a component with one strong-reference field
from a slot that has it yields `true`, a null event for that field before
the presence-clear event, and a cleared presence bit. -/
theorem remove_semantics_witness :
    ∃ s2 pre,
      remove ⟨2, 1, 1, [0, 1], [0, 0], [0, 0]⟩ none 1 ⟨0, 1⟩
          [⟨"target", FieldKind.ref⟩] =
        .ok (true, s2, pre ++ [Ev.clearPresence]) ∧
      (∀ f ∈ [(⟨"target", FieldKind.ref⟩ : FieldDesc)],
        f.kind = FieldKind.ref → Ev.nullField f.name ∈ pre) ∧
      Ev.clearPresence ∉ pre ∧
      hasFlag s2 1 ⟨0, 1⟩ = false :=
  (remove_semantics ⟨2, 1, 1, [0, 1], [0, 0], [0, 0]⟩ none 1 ⟨0, 1⟩
    [⟨"target", FieldKind.ref⟩] rfl rfl (by norm_num)).2 (by decide)

/-- Claim C9: `has`/`read`/`readIfPresent` validate the type against the
caller's read mask and `write` against its write mask, before anything
else: whenever the type's flag is missing from the relevant mask the
operation fails with the capability-violation error, for every store state,
independently of whether the component is present on the slot. -/
theorem capability_mask_enforced (s : EState) (m : RWMasks) (id : Nat)
    (c : Ctrl) :
    (maskHasFlag m.read c = false →
      hasOp s (some m) id c = .error capReadableErr ∧
      readOp s (some m) id c = .error capReadableErr ∧
      readIfPresentOp s (some m) id c = .error capReadableErr) ∧
    (maskHasFlag m.write c = false →
      writeOp s (some m) id c = .error capWritableErr) := by
  constructor
  · intro h
    refine ⟨?_, ?_, ?_⟩ <;> simp [hasOp, readOp, readIfPresentOp, getOp, checkMask, h]
  · intro h
    simp [writeOp, getOp, checkMask, h]

/-- Closed witness for the capability theorem: with empty read and write
masks, every access to a component with ordinal 0 fails with the capability
error on a store whose slot 1 actually has the component. -/
theorem capability_mask_enforced_witness :
    hasOp ⟨2, 1, 1, [0, 1], [0, 0], [0, 0]⟩ (some ⟨[], []⟩) 1 ⟨0, 1⟩ =
      .error capReadableErr ∧
    writeOp ⟨2, 1, 1, [0, 1], [0, 0], [0, 0]⟩ (some ⟨[], []⟩) 1 ⟨0, 1⟩ =
      .error capWritableErr :=
  ⟨((capability_mask_enforced ⟨2, 1, 1, [0, 1], [0, 0], [0, 0]⟩ ⟨[], []⟩ 1
      ⟨0, 1⟩).1 (by decide)).1,
   (capability_mask_enforced ⟨2, 1, 1, [0, 1], [0, 0], [0, 0]⟩ ⟨[], []⟩ 1
      ⟨0, 1⟩).2 (by decide)⟩

/-- Claim C5: `iterateAll`'s iterator flushes only when its cursor is
already past an element, so no flush precedes the first element; but
`iterate`'s explicit iterator runs `dispatcher.flush()` at the top of every
`next()` call — including the very first, the one that produces the first
element (shown concretely on a two-slot store with an always-true
predicate).  This contradicts the never-before-the-first contract the claim
states for both, and the commented-out generator in the source that the
explicit iterator was meant to replicate. -/
theorem iterate_flush_divergence :
    (∀ (numResults : Nat) (filtered : List Nat),
      (iterateAllNext numResults filtered (-1)).2.1 = false) ∧
    (∀ (maxNum : Nat) (pred : Nat → Bool) (id : Nat),
      (iterateNext maxNum pred id).2.1 = true) ∧
    iterateNext 2 (fun _ => true) 1 = (2, true, some 1) := by
  refine ⟨?_, ?_, rfl⟩
  · intro n f
    unfold iterateAllNext
    dsimp only
    split <;> rfl
  · intro m p i
    unfold iterateNext
    dsimp only
    split <;> rfl

/-- Claim C6: `extendMaskAndSetFlag` on an empty mask and a type with
`flagOffset = 1` leaves the gap word at index 0 a hole (JS `undefined`),
not zero — `mask.fill(0, mask.length, flagOffset)` runs after the length
was already set to `flagOffset + 1`, so it covers the empty range.
`maskHasFlag` still reports the flag (the `?? 0` hides the hole), but the
hole is observable: used as a positive mask, the grown mask rejects a slot
whose flag words are all ones, whereas the zero-filled mask the claim
describes accepts it. -/
theorem extend_mask_gap_not_zeroed :
    extendMaskAndSetFlag [] ⟨1, 1⟩ = [none, some 1] ∧
    extendMaskAndSetFlag [] ⟨1, 1⟩ ≠ [some 0, some 1] ∧
    maskHasFlagJs (extendMaskAndSetFlag [] ⟨1, 1⟩) ⟨1, 1⟩ = true ∧
    matchInJs [0xffffffff, 0xffffffff] 2 0
      (some (extendMaskAndSetFlag [] ⟨1, 1⟩)) none = false ∧
    matchInJs [0xffffffff, 0xffffffff] 2 0
      (some [some 0, some 1]) none = true := by
  refine ⟨by decide, by decide, by decide, by decide, by decide⟩

/-- Claim C1 counterexample: with `stride = 2` (more than 32 component
types) the kernel and `matchCurrent` diverge, because the kernel advances
one word — and one candidate id — per iteration instead of one slot
(`stride` words), and `iterateAll` forwards only the first word of each
mask.  On a store with `maxNum = 2`, `stride = 2`, current buffer
`[0, 0, 5, 0]` and positive mask `[1]`, `matchCurrent` accepts slot 1 but
the kernel does not write id 1 (it writes id 2, which is out of slot
range). -/
theorem kernel_match_counterexample :
    matchCurrent ⟨2, 2, 1, [0, 0, 5, 0], [0, 0, 0, 0], [0, 0, 0, 0]⟩ 1
      (some [1]) none = true ∧
    1 ∉ iterateAllResults ⟨2, 2, 1, [0, 0, 5, 0], [0, 0, 0, 0], [0, 0, 0, 0]⟩
      (some [1]) none ∧
    iterateAllResults ⟨2, 2, 1, [0, 0, 5, 0], [0, 0, 0, 0], [0, 0, 0, 0]⟩
      (some [1]) none = [2] := by
  refine ⟨by decide, by decide, by decide⟩

/-- Claim C1 (amended): when `stride = 1` (at most 32 registered component
types) and each mask constrains at most its first word — `iterateAll`
forwards only `withMask?.[0] ?? 0` and `withoutMask?.[0] ?? 0` to the
kernel — the compiled scanning kernel writes a slot id into the scratch
buffer iff `matchCurrent` accepts that slot, for every slot id in
`[1, maxEntities]` and every such mask pair. -/
theorem kernel_match_equiv (s : EState) (pm nm : Option (List Word))
    (id : Nat) (hs : s.stride = 1)
    (hp : ∀ p, pm = some p → p.length ≤ 1)
    (hn : ∀ n, nm = some n → n.length ≤ 1)
    (h1 : 1 ≤ id) (h2 : id < s.maxNum) :
    id ∈ iterateAllResults s pm nm ↔ matchCurrent s id pm nm = true := by
  have hmem : id ∈ iterateAllResults s pm nm ↔
      wasmMatchWord (s.current.getD id 0) (firstWord pm) (firstWord nm) =
        true := by
    unfold iterateAllResults kernelIterateAll
    rw [List.mem_filter]
    constructor
    · rintro ⟨-, ht⟩
      exact ht
    · intro ht
      refine ⟨?_, ht⟩
      rw [hs, List.mem_range'_1]
      omega
  rw [hmem]
  unfold matchCurrent matchIn wasmMatchWord
  rw [hs]
  dsimp only
  rw [Bool.and_eq_true, Bool.and_eq_true]
  have hpos : ((s.current.getD id 0 &&& firstWord pm) == firstWord pm) =
      true ↔
      (match pm with
       | none => true
       | some p => (List.range p.length).all fun i =>
           (s.current.getD (id * 1 + i) 0) &&& (p.getD i 0) ==
             p.getD i 0) = true := by
    rcases pm with _ | p
    · simp [firstWord]
    · rcases p with _ | ⟨x, p⟩
      · simp [firstWord]
      · have hp0 : p = [] := by
          have hlen := hp (x :: p) rfl
          simp only [List.length_cons] at hlen
          exact List.eq_nil_of_length_eq_zero (by omega)
        subst hp0
        simp [firstWord]
  have hneg : ((s.current.getD id 0 &&& firstWord nm) == 0) = true ↔
      (match nm with
       | none => true
       | some n => (List.range n.length).all fun i =>
           (s.current.getD (id * 1 + i) 0) &&& (n.getD i 0) == 0) = true := by
    rcases nm with _ | n
    · simp [firstWord]
    · rcases n with _ | ⟨x, n⟩
      · simp [firstWord]
      · have hn0 : n = [] := by
          have hlen := hn (x :: n) rfl
          simp only [List.length_cons] at hlen
          exact List.eq_nil_of_length_eq_zero (by omega)
        subst hn0
        simp [firstWord]
  rw [hpos, hneg]
  rcases pm with _ | p <;> rcases nm with _ | n <;> rfl

/-- Closed witness for the kernel equivalence at a stride-1 store with a
one-word positive mask. -/
theorem kernel_match_equiv_witness :
    1 ∈ iterateAllResults ⟨3, 1, 1, [0, 5, 2], [0, 0, 0], [0, 0, 0]⟩
        (some [1]) none ↔
      matchCurrent ⟨3, 1, 1, [0, 5, 2], [0, 0, 0], [0, 0, 0]⟩ 1
        (some [1]) none = true :=
  kernel_match_equiv ⟨3, 1, 1, [0, 5, 2], [0, 0, 0], [0, 0, 0]⟩
    (some [1]) none 1 rfl
    (fun p hp => by cases hp; decide)
    (fun n hn => by cases hn)
    (by decide) (by decide)

/-! Pool facts. -/

theorem poolGrow_next (q : PoolState) : (poolGrow q).next = q.next := by
  unfold poolGrow; split <;> rfl

theorem poolBorrow_fst (q : PoolState) : (poolBorrow q).1 = q.next := by
  unfold poolBorrow
  exact poolGrow_next q

theorem poolGrow_length (q : PoolState) (hn : q.next ≤ q.list.length) :
    q.next < (poolGrow q).list.length := by
  unfold poolGrow
  split
  · next hc =>
      simp only [beq_iff_eq] at hc
      simp only [List.length_append, List.length_singleton]
      omega
  · next hc =>
      simp only [beq_iff_eq] at hc
      omega

/-- Claim C10: `borrow` never advances the pool cursor: it returns the
object at the cursor and leaves the cursor where it was, so two consecutive
`borrow` calls — and a `borrow` followed by a `take` — hand out the same
object (the same backing-list index).  `Entities.bind` borrows and rebinds
in place, so binding a new slot id overwrites the slot id held by the
previously returned handle: two consecutive `bind` calls return the same
object, which afterwards carries the second call's slot id. -/
theorem pool_borrow_no_advance (p : PoolState) (a b : Nat)
    (hn : p.next ≤ p.list.length) :
    (poolBorrow p).1 = p.next ∧
    (poolBorrow p).2.next = p.next ∧
    (poolBorrow (poolBorrow p).2).1 = (poolBorrow p).1 ∧
    (poolTake (poolBorrow p).2).1 = (poolBorrow p).1 ∧
    (bindHandle (bindHandle p a).2 b).1 = (bindHandle p a).1 ∧
    (bindHandle (bindHandle p a).2 b).2.list.getD (bindHandle p a).1
      newPoolEntity = ⟨b⟩ := by
  have hb2 : ∀ q : PoolState, (poolBorrow q).2 = poolGrow q := fun q => rfl
  have htake : ∀ q : PoolState, (poolTake q).1 = q.next := by
    intro q; unfold poolTake; exact poolGrow_next q
  have hbind1 : ∀ (q : PoolState) (x : Nat), (bindHandle q x).1 = q.next := by
    intro q x
    show (poolGrow q).next = q.next
    exact poolGrow_next q
  have hbind2 : ∀ (q : PoolState) (x : Nat), (bindHandle q x).2 =
      { list := (poolGrow q).list.set (poolGrow q).next ⟨x⟩,
        next := (poolGrow q).next } :=
    fun q x => rfl
  have hlen : p.next < (poolGrow p).list.length := poolGrow_length p hn
  have hX1 : (bindHandle p a).2.next = p.next := by
    rw [hbind2]
    exact poolGrow_next p
  have hX2 : (bindHandle p a).2.list.length = (poolGrow p).list.length := by
    rw [hbind2]
    exact List.length_set (poolGrow p).list (poolGrow p).next ⟨a⟩
  have hne : ((bindHandle p a).2.next == (bindHandle p a).2.list.length) =
      false := by
    simp only [beq_eq_false_iff_ne, ne_eq, hX1, hX2]
    omega
  have hnogrow : poolGrow (bindHandle p a).2 = (bindHandle p a).2 := by
    unfold poolGrow
    rw [hne]
    simp
  refine ⟨poolBorrow_fst p, poolGrow_next p, ?_, ?_, ?_, ?_⟩
  · rw [hb2, poolBorrow_fst, poolBorrow_fst, poolGrow_next]
  · rw [hb2, htake, poolBorrow_fst, poolGrow_next]
  · rw [hbind1 (bindHandle p a).2 b, hbind1 p a, hX1]
  · rw [hbind2 (bindHandle p a).2 b, hnogrow]
    show ((bindHandle p a).2.list.set (bindHandle p a).2.next ⟨b⟩).getD
      (bindHandle p a).1 newPoolEntity = ⟨b⟩
    rw [hX1, hbind1 p a]
    exact getD_set_self _ p.next ⟨b⟩ newPoolEntity (by rw [hX2]; exact hlen)

/-- Closed witness for the pool theorem at a one-object pool with cursor
0. -/
theorem pool_borrow_no_advance_witness :
    (poolBorrow ⟨[⟨0⟩], 0⟩).1 = 0 ∧
    (poolBorrow ⟨[⟨0⟩], 0⟩).2.next = 0 ∧
    (poolBorrow (poolBorrow ⟨[⟨0⟩], 0⟩).2).1 = (poolBorrow ⟨[⟨0⟩], 0⟩).1 ∧
    (poolTake (poolBorrow ⟨[⟨0⟩], 0⟩).2).1 = (poolBorrow ⟨[⟨0⟩], 0⟩).1 ∧
    (bindHandle (bindHandle ⟨[⟨0⟩], 0⟩ 7).2 9).1 = (bindHandle ⟨[⟨0⟩], 0⟩ 7).1 ∧
    (bindHandle (bindHandle ⟨[⟨0⟩], 0⟩ 7).2 9).2.list.getD
      (bindHandle ⟨[⟨0⟩], 0⟩ 7).1 newPoolEntity = ⟨9⟩ :=
  pool_borrow_no_advance ⟨[⟨0⟩], 0⟩ 7 9 (by decide)

end Becsy
